import Mathlib

/-!
Verification of the structured-output normalization and response-extraction
layer of `llm_test_bench.py`.

The Python code manipulates dynamically-typed JSON-like values (dicts, lists,
strings, numbers, booleans, None).  We embed those values as the mutual
inductive family `J` / `JList` / `JFields` below: a Python `dict` becomes a
`JFields` association list that keeps insertion order (Python 3.7+ dicts are
ordered), a Python `list` becomes a `JList`, and scalars map to the scalar
constructors.  Floating-point literals are carried opaquely as their decimal
text (`jfloat`); no claim depends on float arithmetic.

Fallible Python operations (subscripting, `.get` on a non-dict, iteration over
a non-list) are embedded as `Except String _` computations whose `error`
carries the exception message; the per-provider `try/except` boundary of the
source is the `match` in `callBedrock` / `callOpenAI` / `callGemini` below.
External effects (file reads, HTTP, the wall clock) are supplied by explicit
environment records, so each provider call is a total function from its
environment to a `TestResult` — which is exactly what "an exception never
propagates to the Dispatcher" means in this embedding.
-/

mutual

inductive J where
  | null : J
  | jb (b : Bool) : J
  | jn (n : Int) : J
  | jfloat (lit : String) : J
  | js (s : String) : J
  | arr (elems : JList) : J
  | obj (fields : JFields) : J
deriving DecidableEq

inductive JList where
  | nil : JList
  | cons (hd : J) (tl : JList) : JList
deriving DecidableEq

inductive JFields where
  | nil : JFields
  | cons (key : String) (val : J) (tl : JFields) : JFields
deriving DecidableEq

end

/-- Convert a Lean list of key/value pairs to a `JFields` association list. -/
def toFields : List (String × J) → JFields
  | [] => .nil
  | (k, v) :: tl => .cons k v (toFields tl)

/-- Convert a Lean list of values to a `JList`. -/
def toElems : List J → JList
  | [] => .nil
  | v :: tl => .cons v (toElems tl)

/-- Build a JSON object from a Lean list literal. -/
def jobj (l : List (String × J)) : J := .obj (toFields l)

/-- Build a JSON array from a Lean list literal. -/
def jarr (l : List J) : J := .arr (toElems l)

/-- First value bound to `key` in an association list (Python dict lookup). -/
def lookupF : JFields → String → Option J
  | .nil, _ => none
  | .cons k v tl, key => if k = key then some v else lookupF tl key

/-- Does the association list bind `key` (Python `key in dict`)? -/
def hasKeyF (fs : JFields) (key : String) : Bool := (lookupF fs key).isSome

/-- Append a binding at the end (Python dict insertion of a fresh key). -/
def appendF : JFields → String → J → JFields
  | .nil, k, v => .cons k v .nil
  | .cons k0 v0 tl, k, v => .cons k0 v0 (appendF tl k v)

/-- Python `d[k] = v`: replace the value in place if `k` is bound, keeping its
position; otherwise append the binding at the end. -/
def setKeyF : JFields → String → J → JFields
  | .nil, k, v => .cons k v .nil
  | .cons k0 v0 tl, k, v => if k0 = k then .cons k v tl else .cons k0 v0 (setKeyF tl k v)

/-- Append a value at the end of a `JList` (Python `list.append`). -/
def appendL : JList → J → JList
  | .nil, v => .cons v .nil
  | .cons x tl, v => .cons x (appendL tl v)

/-- Concatenation of two `JList`s. -/
def concatL : JList → JList → JList
  | .nil, ys => ys
  | .cons x tl, ys => .cons x (concatL tl ys)

/-- Membership test on a `JList` (Python `v in list`). -/
def memJL (v : J) : JList → Bool
  | .nil => false
  | .cons x tl => x = v || memJL v tl

/-- Length of a `JList`. -/
def lenL : JList → Nat
  | .nil => 0
  | .cons _ tl => lenL tl + 1

/-- Number of bindings in an association list. -/
def numFields : JFields → Nat
  | .nil => 0
  | .cons _ _ tl => numFields tl + 1

/-- The keys of an association list, in order, as JSON strings
(Python `list(d.keys())`). -/
def fieldKeys : JFields → JList
  | .nil => .nil
  | .cons k _ tl => .cons (.js k) (fieldKeys tl)

/-- No key is bound twice (always true of a real Python dict). -/
def keysNodupF : JFields → Bool
  | .nil => true
  | .cons k _ tl => !hasKeyF tl k && keysNodupF tl

/-- No element appears twice in the list. -/
def nodupL : JList → Bool
  | .nil => true
  | .cons x tl => !memJL x tl && nodupL tl

/-- Field lookup on a JSON value: `none` unless the value is an object. -/
def jGet (v : J) (key : String) : Option J :=
  match v with
  | .obj fs => lookupF fs key
  | _ => none

/-- Lookup along a path of keys. -/
def jPath (v : J) : List String → Option J
  | [] => some v
  | k :: ks =>
      match jGet v k with
      | some x => jPath x ks
      | none => none

/-- Python truthiness of a JSON value (`bool(v)`).  For opaque float literals
we call only the literals `"0"` and `"0.0"` falsy; no claim exercises float
truthiness. -/
def truthy : J → Bool
  | .null => false
  | .jb b => b
  | .jn n => n ≠ 0
  | .jfloat lit => lit ≠ "0" && lit ≠ "0.0"
  | .js s => s ≠ ""
  | .arr xs => xs ≠ .nil
  | .obj fs => fs ≠ .nil

/-- Python `a or b`: `a` if it is truthy, else `b`. -/
def pyOr (a b : J) : J := if truthy a then a else b

/-- Lowercase a string character by character (Python `str.lower`; ASCII is
all the source ever feeds it). -/
def lowerStr (s : String) : String := String.mk (s.data.map Char.toLower)

/-- Is `pat` a prefix of `l`? -/
def charsPref : List Char → List Char → Bool
  | [], _ => true
  | _ :: _, [] => false
  | p :: ps, c :: cs => p = c && charsPref ps cs

/-- Does `pat` occur as a contiguous sublist of `l`? -/
def charsContains (l pat : List Char) : Bool :=
  match l with
  | [] => charsPref pat []
  | _ :: tl => charsPref pat l || charsContains tl pat

/-- Python `pat in s` on strings (substring test). -/
def containsSub (s pat : String) : Bool := charsContains s.data pat.data

/-- Replace every occurrence of the character `pat` by `rep`
(Python `s.replace(' ', '_')`; the source only replaces single spaces). -/
def replaceChar (s : String) (pat rep : Char) : String :=
  String.mk (s.data.map (fun c => if c = pat then rep else c))

mutual

/-- A definite rendering of a JSON value standing in for Python
`json.dumps(v, indent=2)`.  The exact whitespace/escaping of the real
serializer is irrelevant to every claim (claims only ever compare which value
got serialized), so this rendering uses no indentation and no escaping. -/
def dumps : J → String
  | .null => "null"
  | .jb true => "true"
  | .jb false => "false"
  | .jn n => toString n
  | .jfloat lit => lit
  | .js s => "\"" ++ s ++ "\""
  | .arr xs => "[" ++ dumpsL xs ++ "]"
  | .obj fs => "\x7b" ++ dumpsF fs ++ "\x7d"

def dumpsL : JList → String
  | .nil => ""
  | .cons x .nil => dumps x
  | .cons x tl => dumps x ++ ", " ++ dumpsL tl

def dumpsF : JFields → String
  | .nil => ""
  | .cons k v .nil => "\"" ++ k ++ "\": " ++ dumps v
  | .cons k v tl => "\"" ++ k ++ "\": " ++ dumps v ++ ", " ++ dumpsF tl

end

mutual

/-- A definite rendering standing in for Python `str(v)` / `repr(v)`
(single-quoted strings).  As with `dumps`, no claim depends on the exact
text. -/
def pyRepr : J → String
  | .null => "None"
  | .jb true => "True"
  | .jb false => "False"
  | .jn n => toString n
  | .jfloat lit => lit
  | .js s => "\x27" ++ s ++ "\x27"
  | .arr xs => "[" ++ pyReprL xs ++ "]"
  | .obj fs => "\x7b" ++ pyReprF fs ++ "\x7d"

def pyReprL : JList → String
  | .nil => ""
  | .cons x .nil => pyRepr x
  | .cons x tl => pyRepr x ++ ", " ++ pyReprL tl

def pyReprF : JFields → String
  | .nil => ""
  | .cons k v .nil => "\x27" ++ k ++ "\x27: " ++ pyRepr v
  | .cons k v tl => "\x27" ++ k ++ "\x27: " ++ pyRepr v ++ ", " ++ pyReprF tl

end

/-- Python `key in v` for a JSON value: key membership on dicts, element
equality on lists, substring test on strings, `TypeError` otherwise. -/
def pyIn (key : String) (v : J) : Except String Bool :=
  match v with
  | .obj fs => .ok (hasKeyF fs key)
  | .arr xs => .ok (memJL (.js key) xs)
  | .js s => .ok (containsSub s key)
  | _ => .error "TypeError: argument is not iterable"

/-- Python `v[key]` for a string key: dict lookup raising `KeyError` when the
key is absent, `TypeError` on anything that is not a dict. -/
def pyIndexJ (v : J) (key : String) : Except String J :=
  match v with
  | .obj fs =>
      match lookupF fs key with
      | some x => .ok x
      | none => .error ("KeyError: " ++ key)
  | _ => .error "TypeError: value is not subscriptable by str"

/-- Python `v[0]`: first element of a list (`IndexError` when empty), first
character of a string, `KeyError` on a dict (no integer keys in this model),
`TypeError` otherwise. -/
def pyIndex0 (v : J) : Except String J :=
  match v with
  | .arr (.cons x _) => .ok x
  | .arr .nil => .error "IndexError: list index out of range"
  | .js s =>
      match s.data with
      | c :: _ => .ok (.js (String.mk [c]))
      | [] => .error "IndexError: string index out of range"
  | .obj _ => .error "KeyError: 0"
  | _ => .error "TypeError: value is not subscriptable"

/-- Python `v.get(key, default)`: defaulting dict lookup, `AttributeError`
when the receiver is not a dict. -/
def pyGet (v : J) (key : String) (d : J) : Except String J :=
  match v with
  | .obj fs => .ok ((lookupF fs key).getD d)
  | _ => .error "AttributeError: object has no attribute get"

/-- Python `len(v)`: `TypeError` on scalars. -/
def pyLen (v : J) : Except String Nat :=
  match v with
  | .arr xs => .ok (lenL xs)
  | .obj fs => .ok (numFields fs)
  | .js s => .ok s.length
  | _ => .error "TypeError: object has no len"

/-!
### Schema Adapter: `_clean_schema_for_gemini` (source lines 652-669)

The source first deletes the top-level `additionalProperties` binding from a
shallow copy of the dict, then rewrites the value of `properties`
(each dict-valued property is replaced by the recursively cleaned copy) and
the value of `items` (cleaned when it is a dict).  `cleanTop` fuses the two
passes into one traversal — legitimate because the deleted key differs from
the rewritten keys — and `cleanTop_eq_rewrite_erase` below proves the fused
traversal equal to the literal delete-then-rewrite composition.
`cleanJ` is the identity on non-dicts: the source only ever reaches the
recursive call through an `isinstance(…, dict)` guard, and skipping a value
is the same as mapping it to itself.  (A top-level `properties` value that is
not a dict would raise in the source at the `.items()` call; that situation
is outside every claim, and `cleanPropsVal` leaves such a value unchanged.)
-/

/-- Source lines 657-658: `if 'additionalProperties' in cleaned: del …`
(deleting from the shallow copy). -/
def eraseAP : JFields → JFields
  | .nil => .nil
  | .cons k v tl => if k = "additionalProperties" then eraseAP tl else .cons k v (eraseAP tl)

mutual

/-- `_clean_schema_for_gemini`: the value the call RETURNS. -/
def cleanJ : J → J
  | .obj fs => .obj (cleanTop fs)
  | v => v

/-- One fused traversal doing the delete (lines 657-658) and both nested
rewrites (lines 661-667). -/
def cleanTop : JFields → JFields
  | .nil => .nil
  | .cons k v tl =>
      if k = "additionalProperties" then cleanTop tl
      else if k = "properties" then .cons k (cleanPropsVal v) (cleanTop tl)
      else if k = "items" then .cons k (cleanJ v) (cleanTop tl)
      else .cons k v (cleanTop tl)

/-- Lines 661-664: rewrite applied to the value bound to `properties`. -/
def cleanPropsVal : J → J
  | .obj fs => .obj (cleanPropFields fs)
  | v => v

/-- Lines 662-664: each dict-valued property is replaced by its cleaned copy
(`cleanJ` is the identity on non-dicts, matching the `isinstance` skip). -/
def cleanPropFields : JFields → JFields
  | .nil => .nil
  | .cons k v tl => .cons k (cleanJ v) (cleanPropFields tl)

end

mutual

/-- Lines 660-667 in isolation: the nested-rewrite pass without the
`additionalProperties` deletion. -/
def rewriteTop : JFields → JFields
  | .nil => .nil
  | .cons k v tl =>
      if k = "properties" then .cons k (cleanPropsVal v) (rewriteTop tl)
      else if k = "items" then .cons k (cleanJ v) (rewriteTop tl)
      else .cons k v (rewriteTop tl)

end

/-- The fused traversal equals the literal source order: first delete
`additionalProperties`, then rewrite `properties` and `items`. -/
theorem cleanTop_eq_rewrite_erase : ∀ fs : JFields, cleanTop fs = rewriteTop (eraseAP fs)
  | .nil => rfl
  | .cons k v tl => by
      by_cases h1 : k = "additionalProperties"
      · simp [cleanTop, eraseAP, h1, cleanTop_eq_rewrite_erase tl]
      · by_cases h2 : k = "properties"
        · simp [cleanTop, eraseAP, rewriteTop, h1, h2, cleanTop_eq_rewrite_erase tl]
        · by_cases h3 : k = "items"
          · simp [cleanTop, eraseAP, rewriteTop, h1, h2, h3, cleanTop_eq_rewrite_erase tl]
          · simp [cleanTop, eraseAP, rewriteTop, h1, h2, h3, cleanTop_eq_rewrite_erase tl]

/-!
### The caller-visible side effect of `_clean_schema_for_gemini`

`cleaned = schema.copy()` (line 654) is a SHALLOW copy: `cleaned['properties']`
is the very dict object the caller passed in.  The loop at lines 661-664
therefore writes each cleaned property value back into the CALLER's
`properties` dict, and the recursive call at line 667 mutates the caller's
`items` dict the same way (its top-level bindings, including its own
`additionalProperties`, survive, because only the copy is deleted from).
`mutJ v` computes, as a pure value, what the caller's original tree holds
AFTER `_clean_schema_for_gemini(v)` returns (schemas are cycle-free trees, so
there is no aliasing besides the one the shallow copy introduces).
-/

mutual

/-- Post-call value of the argument object of `_clean_schema_for_gemini`. -/
def mutJ : J → J
  | .obj fs => .obj (mutTop fs)
  | v => v

/-- Top level of the caller's dict: its own bindings (also
`additionalProperties`) survive; the `properties` and `items` values are
mutated in place. -/
def mutTop : JFields → JFields
  | .nil => .nil
  | .cons k v tl =>
      if k = "properties" then .cons k (mutPropsVal v) (mutTop tl)
      else if k = "items" then .cons k (mutJ v) (mutTop tl)
      else .cons k v (mutTop tl)

/-- The caller's `properties` dict after the call. -/
def mutPropsVal : J → J
  | .obj fs => .obj (mutPropFields fs)
  | v => v

/-- Line 664 writes the RETURN of the recursive call over each dict-valued
property of the shared `properties` dict. -/
def mutPropFields : JFields → JFields
  | .nil => .nil
  | .cons k v tl => .cons k (cleanJ v) (mutPropFields tl)

end

/-!
### "No `additionalProperties` at any reachable depth"

`noAPJ` decides the property the spec states: no object reachable from the
root through `properties` values and `items` carries an
`additionalProperties` binding.
-/

mutual

def noAPJ : J → Bool
  | .obj fs => noAPTop fs
  | _ => true

def noAPTop : JFields → Bool
  | .nil => true
  | .cons k v tl =>
      decide (k ≠ "additionalProperties") &&
      (if k = "properties" then noAPProps v else if k = "items" then noAPJ v else true) &&
      noAPTop tl

def noAPProps : J → Bool
  | .obj fs => noAPPF fs
  | _ => true

def noAPPF : JFields → Bool
  | .nil => true
  | .cons _ v tl => noAPJ v && noAPPF tl

end

mutual

/-- The cleaner output never contains `additionalProperties` at any depth
reachable through `properties` and `items`. -/
theorem noAPJ_cleanJ : ∀ v : J, noAPJ (cleanJ v) = true
  | .null => rfl
  | .jb _ => rfl
  | .jn _ => rfl
  | .jfloat _ => rfl
  | .js _ => rfl
  | .arr _ => rfl
  | .obj fs => by simpa [cleanJ, noAPJ] using noAPTop_cleanTop fs

theorem noAPTop_cleanTop : ∀ fs : JFields, noAPTop (cleanTop fs) = true
  | .nil => rfl
  | .cons k v tl => by
      by_cases h1 : k = "additionalProperties"
      · simpa [cleanTop, h1] using noAPTop_cleanTop tl
      · by_cases h2 : k = "properties"
        · simp [cleanTop, noAPTop, h1, h2, noAPTop_cleanTop tl, noAPProps_cleanPropsVal v]
        · by_cases h3 : k = "items"
          · simp [cleanTop, noAPTop, h1, h2, h3, noAPTop_cleanTop tl, noAPJ_cleanJ v]
          · simp [cleanTop, noAPTop, h1, h2, h3, noAPTop_cleanTop tl]

theorem noAPProps_cleanPropsVal : ∀ v : J, noAPProps (cleanPropsVal v) = true
  | .null => rfl
  | .jb _ => rfl
  | .jn _ => rfl
  | .jfloat _ => rfl
  | .js _ => rfl
  | .arr _ => rfl
  | .obj fs => by simpa [cleanPropsVal, noAPProps] using noAPPF_cleanPropFields fs

theorem noAPPF_cleanPropFields : ∀ fs : JFields, noAPPF (cleanPropFields fs) = true
  | .nil => rfl
  | .cons k v tl => by
      simp [cleanPropFields, noAPPF, noAPJ_cleanJ v, noAPPF_cleanPropFields tl]

end

mutual

/-- A value already free of reachable `additionalProperties` is a fixed point
of the cleaner. -/
theorem cleanJ_fix : ∀ v : J, noAPJ v = true → cleanJ v = v
  | .null, _ => rfl
  | .jb _, _ => rfl
  | .jn _, _ => rfl
  | .jfloat _, _ => rfl
  | .js _, _ => rfl
  | .arr _, _ => rfl
  | .obj fs, h => by
      simp only [noAPJ] at h
      simp [cleanJ, cleanTop_fix fs h]

theorem cleanTop_fix : ∀ fs : JFields, noAPTop fs = true → cleanTop fs = fs
  | .nil, _ => rfl
  | .cons k v tl, h => by
      simp only [noAPTop, Bool.and_eq_true, decide_eq_true_eq] at h
      obtain ⟨⟨h1, h2⟩, h3⟩ := h
      by_cases hp : k = "properties"
      · simp only [hp, if_true] at h2
        simp [cleanTop, h1, hp, cleanTop_fix tl h3, cleanPropsVal_fix v h2]
      · by_cases hi : k = "items"
        · simp only [hp, if_false, hi, if_true] at h2
          simp [cleanTop, h1, hp, hi, cleanTop_fix tl h3, cleanJ_fix v h2]
        · simp [cleanTop, h1, hp, hi, cleanTop_fix tl h3]

theorem cleanPropsVal_fix : ∀ v : J, noAPProps v = true → cleanPropsVal v = v
  | .null, _ => rfl
  | .jb _, _ => rfl
  | .jn _, _ => rfl
  | .jfloat _, _ => rfl
  | .js _, _ => rfl
  | .arr _, _ => rfl
  | .obj fs, h => by
      simp only [noAPProps] at h
      simp [cleanPropsVal, cleanPF_fix fs h]

theorem cleanPF_fix : ∀ fs : JFields, noAPPF fs = true → cleanPropFields fs = fs
  | .nil, _ => rfl
  | .cons k v tl, h => by
      simp only [noAPPF, Bool.and_eq_true] at h
      simp [cleanPropFields, cleanJ_fix v h.1, cleanPF_fix tl h.2]

end

/-!
### Data model (source lines 26-49 and the config-shaped test case dicts)

A test case is a YAML-shaped dict; the embedding keeps exactly the keys the
core reads.  `Option` models key absence (`'tools' in test_case` is
`tools.isSome`).  `maxTokens` and `temperature` are raw JSON values because
the source only passes them through (defaults 2000 and 0.7, the latter an
opaque float literal here).  The dispatcher always copies the provider model
and name into the per-call dict (lines 810-812), so `model` is a plain field.
-/

structure Tool where
  name : String
  description : String
  schema : J
deriving DecidableEq

structure TestCase where
  name : Option String := none
  prompt : String
  imagePath : Option String := none
  maxTokens : Option J := none
  temperature : Option J := none
  schema : Option J := none
  tools : Option (List Tool) := none
  model : String
  providerName : Option String := none
deriving DecidableEq

/-- The `TestResult` dataclass (source lines 26-34).  The `response` field is
annotated `str` in the source but Python never enforces that, and some
extraction paths store whatever JSON value they found (e.g. a `None`
message content), so the embedding keeps it as a raw `J`. -/
structure TestResult where
  provider : String
  model : String
  response : J
  latencyMs : Int
  timestamp : String
  error : Option String := none
  tokensUsed : Option J := none
deriving DecidableEq

/-- `_get_image_mime_type` (source lines 105-115): extension-based MIME
lookup defaulting to `image/jpeg`.  `Path(p).suffix` is modelled as the text
from the last dot of the final path component (hidden-file corner cases of
`pathlib` are irrelevant to every claim). -/
def getImageMimeType (p : String) : String :=
  let parts := p.data.foldl
    (fun (acc : List Char × List Char) c =>
      if c = '.' then (acc.1 ++ '.' :: acc.2, []) else (acc.1, acc.2 ++ [c]))
    ([], [])
  let ext := if parts.1 = [] then "" else String.mk ('.' :: parts.2)
  let e := lowerStr ext
  if e = ".jpg" then "image/jpeg"
  else if e = ".jpeg" then "image/jpeg"
  else if e = ".png" then "image/png"
  else if e = ".gif" then "image/gif"
  else if e = ".webp" then "image/webp"
  else "image/jpeg"

/-!
### Schema Adapter: OpenAI strict mode (`_call_openai`, source lines 588-603)
-/

/-- Source lines 590-594: `openai_schema = test_case['schema'].copy()`, then —
when a `properties` key exists — `openai_schema['required'] =
list(openai_schema['properties'].keys())`.  A dict-valued schema with a
non-dict `properties` value would raise `AttributeError` at `.keys()` in the
source, and a non-dict schema has no `.copy()`/cannot meaningfully continue;
both surface as the exception path. -/
def strictRequired (S : J) : Except String J :=
  match S with
  | .obj fs =>
      match lookupF fs "properties" with
      | some (.obj pf) => .ok (.obj (setKeyF fs "required" (.arr (fieldKeys pf))))
      | some _ => .error "AttributeError: object has no attribute keys"
      | none => .ok (.obj fs)
  | _ => .error "AttributeError: object has no attribute copy"

/-- One tool in OpenAI function format (source lines 573-582). -/
def openaiToolJ (t : Tool) : J :=
  jobj [("type", .js "function"),
        ("function", jobj [("name", .js t.name),
                           ("description", .js t.description),
                           ("parameters", t.schema)])]

/-- The `messages` array of `_call_openai` (source lines 545-561). -/
def openaiMessages (tc : TestCase) (img mime : String) : J :=
  jarr [jobj [("role", .js "user"),
              ("content", jarr [jobj [("type", .js "text"),
                                      ("text", .js tc.prompt)],
                                jobj [("type", .js "image_url"),
                                      ("image_url", jobj [("url", .js ("data:" ++ mime ++ ";base64," ++ img))])]])]]

/-- The request body of `_call_openai` (source lines 563-603): the base dict,
then either the tools branch (lines 571-585), or the single-schema branch
(lines 588-603), or nothing.  Fallible only through `strictRequired`. -/
def openaiBody (tc : TestCase) (img mime : String) : Except String J :=
  let base : List (String × J) :=
    [("model", .js tc.model),
     ("messages", openaiMessages tc img mime),
     ("max_tokens", tc.maxTokens.getD (.jn 2000)),
     ("temperature", tc.temperature.getD (.jfloat "0.7"))]
  match tc.tools with
  | some ts =>
      .ok (jobj (base ++ [("tools", jarr (ts.map openaiToolJ)),
                          ("tool_choice", .js "auto")]))
  | none =>
      match tc.schema with
      | some S => do
          let s2 ← strictRequired S
          .ok (jobj (base ++
            [("response_format",
              jobj [("type", .js "json_schema"),
                    ("json_schema",
                     jobj [("name", .js (replaceChar (lowerStr ((tc.name).getD "response")) ' ' '_')),
                           ("strict", .jb true),
                           ("schema", s2)])])]))
      | none => .ok (jobj base)

/-!
### Schema Adapter: Gemini union schema
(`_create_union_schema_for_gemini`, source lines 671-705)
-/

/-- The seeded `item_type` discriminator property (source lines 676-682). -/
def itemTypeDef (tools : List Tool) : J :=
  jobj [("type", .js "string"),
        ("enum", jarr (tools.map (fun t => .js t.name))),
        ("description", .js "The type of analysis performed - which tool was conceptually used")]

/-- Source lines 690-693: add each property of one tool schema unless the
name is already taken (first occurrence wins). -/
def addProps (props : JFields) : JFields → JFields
  | .nil => props
  | .cons k v tl => addProps (if hasKeyF props k then props else appendF props k v) tl

/-- Source lines 696-699: append each required field of one tool schema
unless already listed. -/
def addReq (req : JList) : JList → JList
  | .nil => req
  | .cons r tl => addReq (if memJL r req then req else appendL req r) tl

/-- The accumulating loop over tools (source lines 687-699).  Both additions
happen only under `if "properties" in schema:`; a tool schema without a
`properties` binding contributes NOTHING, not even its `required` fields.
(A non-dict `properties` or a non-list `required` would raise / iterate
degenerately in the source; such tools are modelled as skipped, and every
claim below hypothesises the dict/list shapes.) -/
def unionStep (acc : JFields × JList) (t : Tool) : JFields × JList :=
  match t.schema with
  | .obj sf =>
      match lookupF sf "properties" with
      | some (.obj pf) =>
          (addProps acc.1 pf,
           match lookupF sf "required" with
           | some (.arr rs) => addReq acc.2 rs
           | _ => acc.2)
      | _ => acc
  | _ => acc

def unionFold (acc : JFields × JList) (ts : List Tool) : JFields × JList :=
  ts.foldl unionStep acc

/-- `_create_union_schema_for_gemini` (source lines 671-705). -/
def unionSchema (tools : List Tool) : J :=
  let seed : JFields × JList :=
    (.cons "item_type" (itemTypeDef tools) .nil, .cons (.js "item_type") .nil)
  let acc := unionFold seed tools
  jobj [("type", .js "object"),
        ("properties", .obj acc.1),
        ("required", .arr acc.2)]

/-- The request body of `_call_gemini` (source lines 716-751): `contents`
plus `generationConfig`; with tools, the cleaned union schema and the forced
JSON MIME type are appended to the generation config (lines 739-745); with a
single schema, the cleaned schema (lines 748-751). -/
def geminiBody (tc : TestCase) (img mime : String) : J :=
  let gcBase : List (String × J) :=
    [("maxOutputTokens", tc.maxTokens.getD (.jn 2000)),
     ("temperature", tc.temperature.getD (.jfloat "0.7"))]
  let gc :=
    match tc.tools with
    | some ts => gcBase ++ [("responseMimeType", .js "application/json"),
                            ("responseSchema", cleanJ (unionSchema ts))]
    | none =>
        match tc.schema with
        | some S => gcBase ++ [("responseMimeType", .js "application/json"),
                               ("responseSchema", cleanJ S)]
        | none => gcBase
  jobj [("contents",
         jarr [jobj [("parts",
                      jarr [jobj [("text", .js tc.prompt)],
                            jobj [("inline_data",
                                   jobj [("mime_type", .js mime),
                                         ("data", .js img)])]])]]),
        ("generationConfig", jobj gc)]

/-!
### Response Extractor: AWS (`_call_bedrock_model`, source lines 406-509)
-/

/-- `'anthropic' in model_id.lower() or 'claude' in model_id.lower()`
(source line 176). -/
def isClaudeModel (m : String) : Bool :=
  containsSub (lowerStr m) "anthropic" || containsSub (lowerStr m) "claude"

/-- `'llama' in model_id.lower()` (source lines 240, 407, 429). -/
def isLlamaModel (m : String) : Bool := containsSub (lowerStr m) "llama"

/-- The Claude tool-use scan (source lines 418-423): iterate the content
blocks; on the first block whose `type` is `tool_use`, serialize its `input`
and stop; if the loop finishes without a break (`for … else`), fall back to
`response_body['content'][0]['text']` on the WHOLE content list. -/
def claudeLoop (blocks whole : JList) : Except String J :=
  match blocks with
  | .nil => do
      let first ← pyIndex0 (.arr whole)
      pyIndexJ first "text"
  | .cons b tl => do
      let t ← pyIndexJ b "type"
      if t = .js "tool_use" then do
        let inp ← pyIndexJ b "input"
        pure (.js (dumps inp))
      else claudeLoop tl whole

/-- The Claude response-text extraction (source lines 415-426).
`usedToolsOrSchema` is `('schema' in test_case or 'tools' in test_case)`.
Iterating a non-list `content` value raises in the source for every shape
(dict keys / string characters hit `content['type']`, empty ones hit the
`[0]` fallback), so the non-list case is a single modelled `TypeError`. -/
def claudeText (usedToolsOrSchema : Bool) (rb : J) : Except String J := do
  if usedToolsOrSchema then do
    let hc ← pyIn "content" rb
    if hc then do
      let c ← pyIndexJ rb "content"
      match c with
      | .arr bs => claudeLoop bs bs
      | _ => .error "TypeError: content is not iterable"
    else do
      let c ← pyIndexJ rb "content"
      let first ← pyIndex0 c
      pyIndexJ first "text"
  else do
    let c ← pyIndexJ rb "content"
    let first ← pyIndex0 c
    pyIndexJ first "text"

/-- `response_body.get('usage', {}).get('output_tokens', 0)`
(source line 428). -/
def claudeTokens (rb : J) : Except String J := do
  let u ← pyGet rb "usage" (jobj [])
  pyGet u "output_tokens" (.jn 0)

/-- The Claude branch of the extractor (source lines 415-428): text first,
then token count. -/
def claudeExtract (usedToolsOrSchema : Bool) (rb : J) : Except String (J × J) := do
  let t ← claudeText usedToolsOrSchema rb
  let k ← claudeTokens rb
  pure (t, k)

/-- The Llama Converse-API branch of the extractor (source lines 429-445). -/
def llamaExtract (rb : J) : Except String (J × J) := do
  let hasOut ← pyIn "output" rb
  let ok ←
    if hasOut then do
      let out ← pyIndexJ rb "output"
      pyIn "message" out
    else pure false
  if ok then do
    let out ← pyIndexJ rb "output"
    let msg ← pyIndexJ out "message"
    let mc ← pyIndexJ msg "content"
    let nonempty ←
      if truthy mc then do
        let n ← pyLen mc
        pure (decide (0 < n))
      else pure false
    let text ←
      if nonempty then do
        let first ← pyIndex0 mc
        let tuProbe ← pyGet first "toolUse" .null
        if truthy tuProbe then do
          let tu ← pyIndexJ first "toolUse"
          let inp ← pyIndexJ tu "input"
          pure (.js (dumps inp))
        else pyIndexJ first "text"
      else pure (.js "No content in Converse response")
    let u ← pyGet rb "usage" (jobj [])
    let toks ← pyGet u "outputTokens" (.jn 0)
    pure (text, toks)
  else
    pure (.js ("Unexpected Converse response format: " ++ dumps rb), .jn 0)

/-- The generic/DeepSeek/Pixtral/HF text extraction (source lines 448-490):
the ordered shape-sniffing chain.  `response_text` starts as `""` and is left
so when `choices` (or `outputs`) is present but empty/falsy. -/
def nonClaudeText (rb : J) : Except String J := do
  let hasChoices ← pyIn "choices" rb
  if hasChoices then do
    let cs ← pyIndexJ rb "choices"
    let nonempty ←
      if truthy cs then do
        let n ← pyLen cs
        pure (decide (0 < n))
      else pure false
    if nonempty then do
      let choice ← pyIndex0 cs
      let hasMsg ← pyIn "message" choice
      if hasMsg then do
        let msg ← pyIndexJ choice "message"
        let hasTCalls ← pyIn "tool_calls" msg
        let tcTruthy ←
          if hasTCalls then do
            let tcs ← pyIndexJ msg "tool_calls"
            pure (truthy tcs)
          else pure false
        if tcTruthy then do
          let tcs ← pyIndexJ msg "tool_calls"
          let tcall ← pyIndex0 tcs
          let hasFn ← pyIn "function" tcall
          let hasArgs ←
            if hasFn then do
              let fn ← pyIndexJ tcall "function"
              pyIn "arguments" fn
            else pure false
          if hasFn && hasArgs then do
            let fn ← pyIndexJ tcall "function"
            pyIndexJ fn "arguments"
          else pure (.js (pyRepr tcall))
        else pyGet msg "content" (.js (pyRepr choice))
      else pyGet choice "text" (.js (pyRepr choice))
    else pure (.js "")
  else do
    let hasGen ← pyIn "generation" rb
    if hasGen then pyIndexJ rb "generation"
    else do
      let hasGT ← pyIn "generated_text" rb
      if hasGT then pyIndexJ rb "generated_text"
      else do
        let hasOuts ← pyIn "outputs" rb
        if hasOuts then do
          let outs ← pyIndexJ rb "outputs"
          let nonempty ←
            if truthy outs then do
              let n ← pyLen outs
              pure (decide (0 < n))
            else pure false
          if nonempty then do
            let o ← pyIndex0 outs
            let d2 ← pyGet o "generated_text" (.js (pyRepr o))
            let d1 ← pyGet o "generation" d2
            pyGet o "text" d1
          else pure (.js "")
        else do
          let hasText ← pyIn "text" rb
          if hasText then pyIndexJ rb "text"
          else do
            let hasResp ← pyIn "response" rb
            if hasResp then pyIndexJ rb "response"
            else
              match rb with
              | .arr (.cons first _) =>
                  match first with
                  | .obj _ => do
                      let d ← pyGet first "text" (.js (pyRepr first))
                      pyGet first "generated_text" d
                  | _ => pure (.js (pyRepr first))
              | _ => pure (.js ("UNKNOWN_FORMAT: " ++ dumps rb))

/-- The generic token-count probing (source lines 492-509).  `usage`, when
present, is consulted exclusively (a Python `or`-chain over truthiness);
`token_count` / `tokens_used` are reached only when there is no `usage` key;
the final fallback (lines 506-509) re-reads `usage` with a `{}` default and
therefore always yields 0 there. -/
def nonClaudeTokens (rb : J) : Except String J := do
  let hasUsage ← pyIn "usage" rb
  if hasUsage then do
    let usage ← pyIndexJ rb "usage"
    let t1 ← pyGet usage "total_tokens" (.jn 0)
    let t2 ← pyGet usage "output_tokens" (.jn 0)
    let t3 ← pyGet usage "completion_tokens" (.jn 0)
    pure (pyOr t1 (pyOr t2 (pyOr t3 (.jn 0))))
  else do
    let hasTc ← pyIn "token_count" rb
    if hasTc then pyIndexJ rb "token_count"
    else do
      let hasTu ← pyIn "tokens_used" rb
      if hasTu then pyIndexJ rb "tokens_used"
      else do
        let hasCh ← pyIn "choices" rb
        let chTruthy ←
          if hasCh then do
            let cs ← pyIndexJ rb "choices"
            pure (truthy cs)
          else pure false
        if chTruthy then do
          let u ← pyGet rb "usage" (jobj [])
          pyGet u "total_tokens" (.jn 0)
        else pure (.jn 0)

/-- Non-Claude, non-Llama-conversation branch: text, then tokens
(source lines 446-509). -/
def nonClaudeExtract (rb : J) : Except String (J × J) := do
  let t ← nonClaudeText rb
  let k ← nonClaudeTokens rb
  pure (t, k)

/-- The whole response-format dispatch of `_call_bedrock_model`
(source lines 406-509). -/
def bedrockExtract (tc : TestCase) (rb : J) : Except String (J × J) :=
  if isClaudeModel tc.model then
    claudeExtract (tc.schema.isSome || tc.tools.isSome) rb
  else if isLlamaModel tc.model && tc.imagePath.isSome then
    llamaExtract rb
  else
    nonClaudeExtract rb

/-!
### The three provider calls

Each call is `try: build request; perform HTTP; extract` with a single
`except Exception` that returns an error `TestResult` (bedrock lines
165-535, OpenAI lines 537-650, Gemini lines 707-791).  The environment
records carry the outcomes of the external effects: the image read, the
HTTP/SDK exchange (covering request transport, status retrieval and JSON
body parsing), and the two wall-clock readings that the source takes at the
success return and in the handler (`latency_ms = (time.time() - start) *
1000`); `timestamp` stands for `datetime.now().isoformat()`.
-/

deriving instance DecidableEq for Except

/-- `test_case['image_path']` (`KeyError` when the key is absent). -/
def reqImagePath (tc : TestCase) : Except String String :=
  match tc.imagePath with
  | some p => .ok p
  | none => .error "KeyError: image_path"

structure BedrockEnv where
  imageLoad : Except String String
  invoke : Except String J
  tStart : Int
  tDone : Int
  tFail : Int
  timestamp : String
deriving DecidableEq

structure HttpEnv where
  imageLoad : Except String String
  http : Except String (Int × J)
  tStart : Int
  tDone : Int
  tFail : Int
  timestamp : String
deriving DecidableEq

/-- The body of the `try` block of `_call_bedrock_model` (source lines
170-509).  Request construction after the image read is pure dict assembly
whose payload the response does not depend on in this embedding, so the
SDK exchange (including `json.loads(response['body'].read())`) is the
environment outcome `invoke`. -/
def bedrockRun (tc : TestCase) (env : BedrockEnv) : Except String (J × J) := do
  let _ip ← reqImagePath tc
  let _img ← env.imageLoad
  let rb ← env.invoke
  bedrockExtract tc rb

/-- `_call_bedrock_model` (source lines 165-535): the `try/except` envelope
around `bedrockRun`.  Totality of this function is the embedded form of "the
exception never propagates to the Dispatcher". -/
def callBedrock (tc : TestCase) (env : BedrockEnv) : TestResult :=
  match bedrockRun tc env with
  | .ok (text, toks) =>
      { provider := tc.providerName.getD "bedrock_claude"
        model := tc.model
        response := text
        latencyMs := (env.tDone - env.tStart) * 1000
        timestamp := env.timestamp
        error := none
        tokensUsed := some toks }
  | .error e =>
      { provider := tc.providerName.getD "bedrock_model"
        model := tc.model
        response := .js ""
        latencyMs := (env.tFail - env.tStart) * 1000
        timestamp := env.timestamp
        error := some e
        tokensUsed := none }

/-- The body of the `try` block of `_call_openai` (source lines 541-639):
build the request (construction may itself raise, via `strictRequired`),
perform the HTTP call, raise on a non-200 status, then extract. -/
def openaiRun (tc : TestCase) (env : HttpEnv) : Except String (J × J) := do
  let ip ← reqImagePath tc
  let img ← env.imageLoad
  let mime := getImageMimeType ip
  let _body ← openaiBody tc img mime
  let (status, data) ← env.http
  if status ≠ 200 then
    .error ("OpenAI API error: " ++ pyRepr data)
  else do
    let choices ← pyIndexJ data "choices"
    let c0 ← pyIndex0 choices
    let msg ← pyIndexJ c0 "message"
    let text ←
      if tc.tools.isSome then do
        let hasTCalls ← pyIn "tool_calls" msg
        if hasTCalls then do
          let tcs ← pyIndexJ msg "tool_calls"
          let t0 ← pyIndex0 tcs
          let fn ← pyIndexJ t0 "function"
          pyIndexJ fn "arguments"
        else pyIndexJ msg "content"
      else pyIndexJ msg "content"
    let usage ← pyGet data "usage" (jobj [])
    let toks ← pyGet usage "total_tokens" (.jn 0)
    pure (text, toks)

/-- `_call_openai` (source lines 537-650): the `try/except` envelope. -/
def callOpenAI (tc : TestCase) (env : HttpEnv) : TestResult :=
  match openaiRun tc env with
  | .ok (text, toks) =>
      { provider := "openai"
        model := tc.model
        response := text
        latencyMs := (env.tDone - env.tStart) * 1000
        timestamp := env.timestamp
        error := none
        tokensUsed := some toks }
  | .error e =>
      { provider := "openai"
        model := tc.model
        response := .js ""
        latencyMs := (env.tFail - env.tStart) * 1000
        timestamp := env.timestamp
        error := some e
        tokensUsed := none }

/-- The body of the `try` block of `_call_gemini` (source lines 711-780). -/
def geminiRun (tc : TestCase) (env : HttpEnv) : Except String (J × J) := do
  let ip ← reqImagePath tc
  let img ← env.imageLoad
  let mime := getImageMimeType ip
  let _body := geminiBody tc img mime
  let (status, data) ← env.http
  if status ≠ 200 then
    .error ("Gemini API error: " ++ pyRepr data)
  else do
    let cands ← pyIndexJ data "candidates"
    let cand ← pyIndex0 cands
    let content ← pyIndexJ cand "content"
    let parts ← pyIndexJ content "parts"
    let p0 ← pyIndex0 parts
    let text ← pyIndexJ p0 "text"
    let um ← pyGet data "usageMetadata" (jobj [])
    let toks ← pyGet um "totalTokenCount" (.jn 0)
    pure (text, toks)

/-- `_call_gemini` (source lines 707-791): the `try/except` envelope. -/
def callGemini (tc : TestCase) (env : HttpEnv) : TestResult :=
  match geminiRun tc env with
  | .ok (text, toks) =>
      { provider := "gemini"
        model := tc.model
        response := text
        latencyMs := (env.tDone - env.tStart) * 1000
        timestamp := env.timestamp
        error := none
        tokensUsed := some toks }
  | .error e =>
      { provider := "gemini"
        model := tc.model
        response := .js ""
        latencyMs := (env.tFail - env.tStart) * 1000
        timestamp := env.timestamp
        error := some e
        tokensUsed := none }

/-!
### Helper lemmas about the association-list and list operations

The mutual inductive family has no one-motive eliminator usable by the
`induction` tactic, so recursive lemmas are written as equations.
-/

theorem lookupF_setKeyF_self : ∀ (fs : JFields) (k : String) (v : J),
    lookupF (setKeyF fs k v) k = some v
  | .nil, k, v => by simp [setKeyF, lookupF]
  | .cons k0 v0 tl, k, v => by
      by_cases h : k0 = k
      · simp [setKeyF, lookupF, h]
      · simp [setKeyF, lookupF, h, lookupF_setKeyF_self tl k v]

theorem lookupF_setKeyF_ne : ∀ (fs : JFields) (k : String) (v : J) (k0 : String),
    k0 ≠ k → lookupF (setKeyF fs k v) k0 = lookupF fs k0
  | .nil, k, v, k0, h => by
      have h2 : ¬ k = k0 := fun hh => h hh.symm
      simp [setKeyF, lookupF, h2]
  | .cons k1 v1 tl, k, v, k0, h => by
      by_cases h1 : k1 = k
      · subst h1
        have h2 : ¬ k1 = k0 := fun hh => h hh.symm
        simp [setKeyF, lookupF, h2]
      · by_cases h2 : k1 = k0
        · subst h2
          simp [setKeyF, lookupF, h]
        · simp [setKeyF, lookupF, h1, h2, lookupF_setKeyF_ne tl k v k0 h]

theorem lenL_fieldKeys : ∀ pf : JFields, lenL (fieldKeys pf) = numFields pf
  | .nil => rfl
  | .cons _ _ tl => by simp [fieldKeys, lenL, numFields, lenL_fieldKeys tl]

theorem memJL_js_fieldKeys : ∀ (pf : JFields) (k : String),
    memJL (.js k) (fieldKeys pf) = hasKeyF pf k
  | .nil, k => by simp [fieldKeys, memJL, hasKeyF, lookupF]
  | .cons k0 _ tl, k => by
      by_cases h : k0 = k
      · simp [fieldKeys, memJL, hasKeyF, lookupF, h]
      · simp [fieldKeys, memJL, hasKeyF, lookupF, h, memJL_js_fieldKeys tl k]

theorem fieldKeys_mem_js : ∀ (pf : JFields) (x : J),
    memJL x (fieldKeys pf) = true → ∃ k, x = .js k ∧ hasKeyF pf k = true
  | .nil, x, h => by simp [fieldKeys, memJL] at h
  | .cons k0 v0 tl, x, h => by
      simp only [fieldKeys, memJL, Bool.or_eq_true, decide_eq_true_eq] at h
      rcases h with h | h
      · exact ⟨k0, h.symm, by simp [hasKeyF, lookupF]⟩
      · obtain ⟨k, hk, hmem⟩ := fieldKeys_mem_js tl x h
        refine ⟨k, hk, ?_⟩
        by_cases hkk : k0 = k
        · simp [hasKeyF, lookupF, hkk]
        · simpa [hasKeyF, lookupF, hkk] using hmem

theorem nodupL_fieldKeys : ∀ pf : JFields,
    keysNodupF pf = true → nodupL (fieldKeys pf) = true
  | .nil, _ => rfl
  | .cons k0 v0 tl, h => by
      simp only [keysNodupF, Bool.and_eq_true, Bool.not_eq_true'] at h
      simp [fieldKeys, nodupL, memJL_js_fieldKeys, h.1, nodupL_fieldKeys tl h.2]

theorem lookupF_appendF : ∀ (fs : JFields) (k0 : String) (v0 : J) (k : String),
    lookupF (appendF fs k0 v0) k =
      match lookupF fs k with
      | some v => some v
      | none => if k0 = k then some v0 else none
  | .nil, k0, v0, k => by simp [appendF, lookupF]
  | .cons k1 v1 tl, k0, v0, k => by
      by_cases h : k1 = k
      · simp [appendF, lookupF, h]
      · simp [appendF, lookupF, h, lookupF_appendF tl k0 v0 k]

theorem lookupF_eq_none_of_not_hasKey (props : JFields) (k : String)
    (h : ¬ hasKeyF props k = true) : lookupF props k = none := by
  cases hl : lookupF props k with
  | none => rfl
  | some v => simp [hasKeyF, hl] at h

theorem addProps_lookupF : ∀ (pf props : JFields) (k : String),
    lookupF (addProps props pf) k =
      if hasKeyF props k = true then lookupF props k else lookupF pf k
  | .nil, props, k => by
      by_cases h : hasKeyF props k = true
      · simp [addProps, h]
      · simp [addProps, lookupF, h, lookupF_eq_none_of_not_hasKey props k h]
  | .cons k0 v0 tl, props, k => by
      by_cases hp : hasKeyF props k0 = true
      · have hstep : addProps props (.cons k0 v0 tl) = addProps props tl := by
          simp [addProps, hp]
        rw [hstep, addProps_lookupF tl props k]
        by_cases hkk : k0 = k
        · subst hkk
          simp [hp, lookupF]
        · simp [lookupF, hkk]
      · have hstep : addProps props (.cons k0 v0 tl) = addProps (appendF props k0 v0) tl := by
          simp [addProps, hp]
        rw [hstep, addProps_lookupF tl (appendF props k0 v0) k]
        by_cases hkk : k0 = k
        · subst hkk
          have hnone : lookupF props k0 = none := lookupF_eq_none_of_not_hasKey props k0 hp
          have happ : lookupF (appendF props k0 v0) k0 = some v0 := by
            rw [lookupF_appendF]
            simp [hnone]
          simp [hasKeyF, happ, hp, hnone, lookupF]
        · have happ : lookupF (appendF props k0 v0) k = lookupF props k := by
            rw [lookupF_appendF]
            cases hl : lookupF props k with
            | none => simp [hkk]
            | some v => rfl
          rw [show hasKeyF (appendF props k0 v0) k = hasKeyF props k by simp [hasKeyF, happ]]
          simp [happ, lookupF, hkk]


theorem hasKeyF_addProps (pf props : JFields) (k : String) :
    hasKeyF (addProps props pf) k = (hasKeyF props k || hasKeyF pf k) := by
  rw [hasKeyF, addProps_lookupF]
  cases hl : lookupF props k with
  | some v => simp [hasKeyF, hl]
  | none => simp [hasKeyF, hl]

theorem memJL_appendL : ∀ (l : JList) (y x : J),
    memJL x (appendL l y) = (memJL x l || decide (y = x))
  | .nil, y, x => by simp [appendL, memJL]
  | .cons z tl, y, x => by
      simp [appendL, memJL, memJL_appendL tl y x, Bool.or_assoc]

theorem addReq_mono : ∀ (rs req : JList) (x : J),
    memJL x req = true → memJL x (addReq req rs) = true
  | .nil, req, x, h => h
  | .cons r0 tl, req, x, h => by
      by_cases hm : memJL r0 req = true
      · rw [show addReq req (.cons r0 tl) = addReq req tl by simp [addReq, hm]]
        exact addReq_mono tl req x h
      · rw [show addReq req (.cons r0 tl) = addReq (appendL req r0) tl by simp [addReq, hm]]
        exact addReq_mono tl (appendL req r0) x (by simp [memJL_appendL, h])

theorem addReq_new : ∀ (rs req : JList) (r : J),
    memJL r rs = true → memJL r (addReq req rs) = true
  | .nil, req, r, h => by simp [memJL] at h
  | .cons r0 tl, req, r, h => by
      simp only [memJL, Bool.or_eq_true, decide_eq_true_eq] at h
      by_cases hm : memJL r0 req = true
      · rw [show addReq req (.cons r0 tl) = addReq req tl by simp [addReq, hm]]
        rcases h with h | h
        · subst h
          exact addReq_mono tl req r0 hm
        · exact addReq_new tl req r h
      · rw [show addReq req (.cons r0 tl) = addReq (appendL req r0) tl by simp [addReq, hm]]
        rcases h with h | h
        · subst h
          exact addReq_mono tl (appendL req r0) r0 (by simp [memJL_appendL])
        · exact addReq_new tl (appendL req r0) r h

/-- Does the tool declare property `k` through the path the source union loop
reads (`tool['schema']['properties']`, dict-shaped)? -/
def declaresProp (t : Tool) (k : String) : Bool :=
  match t.schema with
  | .obj sf =>
      match lookupF sf "properties" with
      | some (.obj pf) => hasKeyF pf k
      | _ => false
  | _ => false

/-- Does any tool in the list declare property `k`? -/
def anyDeclares (ts : List Tool) (k : String) : Bool := ts.any (fun t => declaresProp t k)

theorem unionStep_req_mono (acc : JFields × JList) (t : Tool) (x : J)
    (h : memJL x acc.2 = true) : memJL x (unionStep acc t).2 = true := by
  unfold unionStep
  split
  · split
    · split
      · simpa using addReq_mono _ _ _ h
      · simpa using h
    · exact h
  · exact h

theorem unionFold_req_mono : ∀ (ts : List Tool) (acc : JFields × JList) (x : J),
    memJL x acc.2 = true → memJL x (unionFold acc ts).2 = true
  | [], _, _, h => h
  | t :: rest, acc, x, h => by
      rw [show unionFold acc (t :: rest) = unionFold (unionStep acc t) rest from rfl]
      exact unionFold_req_mono rest (unionStep acc t) x (unionStep_req_mono acc t x h)

theorem unionStep_props_hasKey (acc : JFields × JList) (t : Tool) (k : String) :
    hasKeyF (unionStep acc t).1 k = (hasKeyF acc.1 k || declaresProp t k) := by
  unfold unionStep declaresProp
  split
  · split
    · split
      · simp [hasKeyF_addProps]
      · simp [hasKeyF_addProps]
    · simp
  · simp

theorem unionFold_props_hasKey : ∀ (ts : List Tool) (acc : JFields × JList) (k : String),
    hasKeyF (unionFold acc ts).1 k = (hasKeyF acc.1 k || anyDeclares ts k)
  | [], acc, k => by simp [unionFold, anyDeclares]
  | t :: rest, acc, k => by
      rw [show unionFold acc (t :: rest) = unionFold (unionStep acc t) rest from rfl]
      rw [unionFold_props_hasKey rest (unionStep acc t) k, unionStep_props_hasKey]
      simp [anyDeclares, Bool.or_assoc]

theorem unionStep_props_lookup_mono (acc : JFields × JList) (t : Tool) (k : String)
    (h : hasKeyF acc.1 k = true) : lookupF (unionStep acc t).1 k = lookupF acc.1 k := by
  unfold unionStep
  split
  · split
    · split
      · simp [addProps_lookupF, h]
      · simp [addProps_lookupF, h]
    · rfl
  · rfl

theorem unionFold_props_lookup_mono : ∀ (ts : List Tool) (acc : JFields × JList) (k : String),
    hasKeyF acc.1 k = true → lookupF (unionFold acc ts).1 k = lookupF acc.1 k
  | [], _, _, _ => rfl
  | t :: rest, acc, k, h => by
      rw [show unionFold acc (t :: rest) = unionFold (unionStep acc t) rest from rfl]
      rw [unionFold_props_lookup_mono rest (unionStep acc t) k
            (by rw [unionStep_props_hasKey]; simp [h])]
      exact unionStep_props_lookup_mono acc t k h

theorem unionFold_append (l1 l2 : List Tool) (acc : JFields × JList) :
    unionFold acc (l1 ++ l2) = unionFold (unionFold acc l1) l2 := by
  simp [unionFold, List.foldl_append]

theorem lookupF_cleanPropFields : ∀ (pf : JFields) (k : String),
    lookupF (cleanPropFields pf) k = (lookupF pf k).map cleanJ
  | .nil, k => rfl
  | .cons k0 v0 tl, k => by
      by_cases h : k0 = k
      · simp [cleanPropFields, lookupF, h]
      · simp [cleanPropFields, lookupF, h, lookupF_cleanPropFields tl k]

/-- Reduction of `do`-binds over `Except` on a known-successful first step. -/
theorem bind_ok_eq {α β : Type} (a : α) (f : α → Except String β) :
    (do let x ← (Except.ok a : Except String α); f x) = f a := rfl

/-- Reduction of `do`-binds over `Except` on a known-failing first step. -/
theorem bind_error_eq {α β : Type} (e : String) (f : α → Except String β) :
    (do let x ← (Except.error e : Except String α); f x) = (Except.error e : Except String β) := rfl

/-- Collapse the trivial option match produced by one-step `jPath`. -/
theorem option_match_id (o : Option J) :
    (match o with | some x => some x | none => none) = o := by
  cases o <;> rfl

/-!
## Claim theorems
-/

/-- C2: for every schema S, applying the Gemini schema cleaner twice yields
the same result as applying it once, and the result contains no
`additionalProperties` key at any depth reachable through `properties` and
`items` (the decidable reachability predicate `noAPJ`). -/
theorem claim_C2_clean_idempotent_and_strips (S : J) :
    cleanJ (cleanJ S) = cleanJ S ∧ noAPJ (cleanJ S) = true :=
  ⟨cleanJ_fix (cleanJ S) (noAPJ_cleanJ S), noAPJ_cleanJ S⟩

/-- A schema whose nested property sub-schema carries
`additionalProperties` — the failing input for claim C3. -/
def nestedAPSchema : J :=
  jobj [("type", .js "object"),
        ("properties", jobj [("a", jobj [("type", .js "string"),
                                         ("additionalProperties", .jb false)])])]

/-- C3 (code bug): `_clean_schema_for_gemini` is NOT pure.  `schema.copy()`
is a shallow copy, so line 664 writes each cleaned property value back into
the caller's own `properties` dict.  On `nestedAPSchema` the caller's tree
changes: the nested `additionalProperties` binding under `properties.a` is
gone after the call (`mutJ` computes the caller-visible post-state). -/
theorem claim_C3_cleaner_mutates_caller :
    mutJ nestedAPSchema ≠ nestedAPSchema ∧
    mutJ nestedAPSchema =
      jobj [("type", .js "object"),
            ("properties", jobj [("a", jobj [("type", .js "string")])])] :=
  ⟨by decide, by decide⟩

/-- C4: for a test case with a single schema (no tools) whose `properties`
dict declares N properties (with distinct keys, as every Python dict has),
the OpenAI request's `response_format.json_schema.schema.required` is exactly
the key list of `properties`: N entries, each a declared property name, no
duplicates, and every declared key listed. -/
theorem claim_C4_openai_strict_required
    (nm : Option String) (pr : String) (ip : Option String) (mt tmp : Option J)
    (md : String) (pn : Option String) (img mime : String) (fs pf : JFields)
    (hprops : lookupF fs "properties" = some (.obj pf))
    (hnodup : keysNodupF pf = true) :
    ∃ b, openaiBody ⟨nm, pr, ip, mt, tmp, some (.obj fs), none, md, pn⟩ img mime = .ok b ∧
      jPath b ["response_format", "json_schema", "schema", "required"]
        = some (.arr (fieldKeys pf)) ∧
      lenL (fieldKeys pf) = numFields pf ∧
      nodupL (fieldKeys pf) = true ∧
      (∀ x, memJL x (fieldKeys pf) = true → ∃ k, x = .js k ∧ hasKeyF pf k = true) ∧
      (∀ k, hasKeyF pf k = true → memJL (.js k) (fieldKeys pf) = true) := by
  have hs : strictRequired (.obj fs)
      = .ok (.obj (setKeyF fs "required" (.arr (fieldKeys pf)))) := by
    simp [strictRequired, hprops]
  refine ⟨jobj ([("model", .js md),
                 ("messages", openaiMessages ⟨nm, pr, ip, mt, tmp, some (.obj fs), none, md, pn⟩ img mime),
                 ("max_tokens", mt.getD (.jn 2000)),
                 ("temperature", tmp.getD (.jfloat "0.7"))] ++
                [("response_format",
                  jobj [("type", .js "json_schema"),
                        ("json_schema",
                         jobj [("name", .js (replaceChar (lowerStr (nm.getD "response")) ' ' '_')),
                               ("strict", .jb true),
                               ("schema", .obj (setKeyF fs "required" (.arr (fieldKeys pf))))])])]),
          ?_, ?_, lenL_fieldKeys pf, nodupL_fieldKeys pf hnodup,
          fieldKeys_mem_js pf, fun k hk => by rw [memJL_js_fieldKeys]; exact hk⟩
  · simp only [openaiBody, hs]
    rfl
  · simp [jPath, jGet, jobj, toFields, lookupF, lookupF_setKeyF_self]

/-- C10: the strict-required rewrite touches only the top level of the
schema: in the outgoing OpenAI request the schema's `properties` value (and
so every nested sub-schema with its own `required` and `properties`) and its
`items` value are exactly the input's. -/
theorem claim_C10_nested_schemas_untouched
    (nm : Option String) (pr : String) (ip : Option String) (mt tmp : Option J)
    (md : String) (pn : Option String) (img mime : String) (S b : J)
    (hb : openaiBody ⟨nm, pr, ip, mt, tmp, some S, none, md, pn⟩ img mime = .ok b) :
    jPath b ["response_format", "json_schema", "schema", "properties"] = jGet S "properties" ∧
    jPath b ["response_format", "json_schema", "schema", "items"] = jGet S "items" := by
  cases S with
  | obj fs =>
      cases hp : lookupF fs "properties" with
      | some v =>
          cases v with
          | obj pf =>
              have hs : strictRequired (.obj fs)
                  = .ok (.obj (setKeyF fs "required" (.arr (fieldKeys pf)))) := by
                simp [strictRequired, hp]
              simp only [openaiBody, hs, bind_ok_eq, Except.ok.injEq] at hb
              subst hb
              constructor
              · simp [jPath, jGet, jobj, toFields, lookupF,
                      lookupF_setKeyF_ne fs "required" _ "properties" (by decide), hp]
              · simp [jPath, jGet, jobj, toFields, lookupF, option_match_id,
                      lookupF_setKeyF_ne fs "required" _ "items" (by decide)]
          | null => simp [openaiBody, strictRequired, hp, bind_error_eq] at hb
          | jb bb => simp [openaiBody, strictRequired, hp, bind_error_eq] at hb
          | jn n => simp [openaiBody, strictRequired, hp, bind_error_eq] at hb
          | jfloat l => simp [openaiBody, strictRequired, hp, bind_error_eq] at hb
          | js s => simp [openaiBody, strictRequired, hp, bind_error_eq] at hb
          | arr a => simp [openaiBody, strictRequired, hp, bind_error_eq] at hb
      | none =>
          have hs : strictRequired (.obj fs) = .ok (.obj fs) := by
            simp [strictRequired, hp]
          simp only [openaiBody, hs, bind_ok_eq, Except.ok.injEq] at hb
          subst hb
          constructor
          · simp [jPath, jGet, jobj, toFields, lookupF, option_match_id]
          · simp [jPath, jGet, jobj, toFields, lookupF, option_match_id]
  | null => simp [openaiBody, strictRequired, bind_error_eq] at hb
  | jb bb => simp [openaiBody, strictRequired, bind_error_eq] at hb
  | jn n => simp [openaiBody, strictRequired, bind_error_eq] at hb
  | jfloat l => simp [openaiBody, strictRequired, bind_error_eq] at hb
  | js s => simp [openaiBody, strictRequired, bind_error_eq] at hb
  | arr a => simp [openaiBody, strictRequired, bind_error_eq] at hb

/-- A tool whose schema has a `required` list but no `properties` key — the
counterexample input for claim C5. -/
def reqOnlyTool : Tool := ⟨"t", "d", jobj [("required", jarr [.js "x"])]⟩

/-- C5 counterexample: the claim says `Union-of-tools(T).required` contains
every field of every tool's own required list, but for `[reqOnlyTool]` —
whose schema requires `"x"` yet declares no `properties` — the union's
required list is just `["item_type"]`: the source only collects `required`
inside `if "properties" in schema:` (lines 689-699). -/
theorem claim_C5_cex :
    jGet reqOnlyTool.schema "required" = some (jarr [.js "x"]) ∧
    jGet (unionSchema [reqOnlyTool]) "required" = some (jarr [.js "item_type"]) ∧
    memJL (.js "x") (toElems [.js "item_type"]) = false :=
  ⟨by decide, by decide, by decide⟩

/-- C5 (amended): for every non-empty tool list, the union schema's required
list contains `"item_type"` and the required fields of every tool WHOSE
SCHEMA DECLARES A `properties` KEY (a tool without one contributes neither
properties nor required fields); the union's properties contain every
property name of every tool; and on a name collision the first-seen
definition is kept (the first tool that declares the name, and the
pre-seeded `item_type` discriminator beats every tool). -/
theorem claim_C5_amended (ts : List Tool) (hne : ts ≠ []) :
    ∃ props req,
      jGet (unionSchema ts) "properties" = some (.obj props) ∧
      jGet (unionSchema ts) "required" = some (.arr req) ∧
      memJL (.js "item_type") req = true ∧
      (∀ t, t ∈ ts → ∀ sf pf rs, t.schema = .obj sf →
          lookupF sf "properties" = some (.obj pf) →
          lookupF sf "required" = some (.arr rs) →
          ∀ r, memJL r rs = true → memJL r req = true) ∧
      (∀ t, t ∈ ts → ∀ sf pf, t.schema = .obj sf →
          lookupF sf "properties" = some (.obj pf) →
          ∀ k, hasKeyF pf k = true → hasKeyF props k = true) ∧
      (∀ l1 t l2 sf pf, ts = l1 ++ t :: l2 → t.schema = .obj sf →
          lookupF sf "properties" = some (.obj pf) →
          ∀ k, hasKeyF pf k = true → anyDeclares l1 k = false → k ≠ "item_type" →
          lookupF props k = lookupF pf k) := by
  refine ⟨(unionFold (.cons "item_type" (itemTypeDef ts) .nil, .cons (.js "item_type") .nil) ts).1,
          (unionFold (.cons "item_type" (itemTypeDef ts) .nil, .cons (.js "item_type") .nil) ts).2,
          ?_, ?_, ?_, ?_, ?_, ?_⟩
  · simp [unionSchema, jGet, jobj, toFields, lookupF]
  · simp [unionSchema, jGet, jobj, toFields, lookupF]
  · exact unionFold_req_mono ts _ _ (by simp [memJL])
  · intro t ht sf pf rs hsch hpf hrs r hr
    obtain ⟨l1, l2, rfl⟩ := List.append_of_mem ht
    rw [unionFold_append]
    rw [show unionFold (unionFold (.cons "item_type" (itemTypeDef (l1 ++ t :: l2)) .nil, .cons (.js "item_type") .nil) l1) (t :: l2) = unionFold (unionStep (unionFold (.cons "item_type" (itemTypeDef (l1 ++ t :: l2)) .nil, .cons (.js "item_type") .nil) l1) t) l2 from rfl]
    refine unionFold_req_mono l2 _ _ ?_
    have hstep : (unionStep (unionFold (.cons "item_type" (itemTypeDef (l1 ++ t :: l2)) .nil, .cons (.js "item_type") .nil) l1) t).2
        = addReq (unionFold (.cons "item_type" (itemTypeDef (l1 ++ t :: l2)) .nil, .cons (.js "item_type") .nil) l1).2 rs := by
      simp [unionStep, hsch, hpf, hrs]
    rw [hstep]
    exact addReq_new rs _ r hr
  · intro t ht sf pf hsch hpf k hk
    obtain ⟨l1, l2, rfl⟩ := List.append_of_mem ht
    rw [unionFold_append]
    rw [show unionFold (unionFold (.cons "item_type" (itemTypeDef (l1 ++ t :: l2)) .nil, .cons (.js "item_type") .nil) l1) (t :: l2) = unionFold (unionStep (unionFold (.cons "item_type" (itemTypeDef (l1 ++ t :: l2)) .nil, .cons (.js "item_type") .nil) l1) t) l2 from rfl]
    rw [unionFold_props_hasKey]
    have hstep : (unionStep (unionFold (.cons "item_type" (itemTypeDef (l1 ++ t :: l2)) .nil, .cons (.js "item_type") .nil) l1) t).1
        = addProps (unionFold (.cons "item_type" (itemTypeDef (l1 ++ t :: l2)) .nil, .cons (.js "item_type") .nil) l1).1 pf := by
      simp [unionStep, hsch, hpf]
    rw [hstep, hasKeyF_addProps]
    simp [hk]
  · intro l1 t l2 sf pf hts hsch hpf k hk hnone hkit
    subst hts
    rw [unionFold_append]
    rw [show unionFold (unionFold (.cons "item_type" (itemTypeDef (l1 ++ t :: l2)) .nil, .cons (.js "item_type") .nil) l1) (t :: l2) = unionFold (unionStep (unionFold (.cons "item_type" (itemTypeDef (l1 ++ t :: l2)) .nil, .cons (.js "item_type") .nil) l1) t) l2 from rfl]
    have hit2 : ¬ "item_type" = k := fun h => hkit h.symm
    have hseed : hasKeyF (JFields.cons "item_type" (itemTypeDef (l1 ++ t :: l2)) .nil) k = false := by
      simp [hasKeyF, lookupF, hit2]
    have hacc1 : hasKeyF (unionFold (.cons "item_type" (itemTypeDef (l1 ++ t :: l2)) .nil, .cons (.js "item_type") .nil) l1).1 k = false := by
      rw [unionFold_props_hasKey]
      simp [hseed, hnone]
    have hstep : (unionStep (unionFold (.cons "item_type" (itemTypeDef (l1 ++ t :: l2)) .nil, .cons (.js "item_type") .nil) l1) t).1
        = addProps (unionFold (.cons "item_type" (itemTypeDef (l1 ++ t :: l2)) .nil, .cons (.js "item_type") .nil) l1).1 pf := by
      simp [unionStep, hsch, hpf]
    have hlook : lookupF (unionStep (unionFold (.cons "item_type" (itemTypeDef (l1 ++ t :: l2)) .nil, .cons (.js "item_type") .nil) l1) t).1 k = lookupF pf k := by
      rw [hstep, addProps_lookupF, hacc1]
      simp
    rw [unionFold_props_lookup_mono l2 _ k ?_, hlook]
    rw [hstep, hasKeyF_addProps, hacc1]
    simp [hk]

theorem jPath_append : ∀ (p1 : List String) (v : J) (p2 : List String),
    jPath v (p1 ++ p2) = match jPath v p1 with | some x => jPath x p2 | none => none
  | [], v, p2 => rfl
  | k :: ks, v, p2 => by
      simp only [List.cons_append, jPath]
      cases jGet v k with
      | some x => exact jPath_append ks x p2
      | none => rfl

theorem unionFold_lookup_item (X : J) (R : JList) (ts : List Tool) :
    lookupF (unionFold (.cons "item_type" X .nil, R) ts).1 "item_type" = some X := by
  rw [unionFold_props_lookup_mono ts _ "item_type" (by simp [hasKeyF, lookupF])]
  simp [lookupF]

/-- C6: a test case carrying one or more tools and routed to Gemini produces
a request whose `generationConfig.responseMimeType` is forced to
`application/json` and whose `responseSchema.properties.item_type.enum` is
exactly the tool-name list in order — in particular `[toolName]` for a
single tool. -/
theorem claim_C6_gemini_tools_request
    (nm : Option String) (pr : String) (ip : Option String) (mt tmp : Option J)
    (sc : Option J) (md : String) (pn : Option String) (img mime : String)
    (ts : List Tool) (hne : ts ≠ []) :
    jPath (geminiBody ⟨nm, pr, ip, mt, tmp, sc, some ts, md, pn⟩ img mime)
        ["generationConfig", "responseMimeType"] = some (.js "application/json") ∧
    jPath (geminiBody ⟨nm, pr, ip, mt, tmp, sc, some ts, md, pn⟩ img mime)
        ["generationConfig", "responseSchema", "properties", "item_type", "enum"]
      = some (jarr (ts.map fun t => .js t.name)) := by
  have hclean : cleanJ (unionSchema ts)
      = .obj (.cons "type" (.js "object")
          (.cons "properties" (.obj (cleanPropFields (unionFold (.cons "item_type" (itemTypeDef ts) .nil, .cons (.js "item_type") .nil) ts).1))
            (.cons "required" (.arr (unionFold (.cons "item_type" (itemTypeDef ts) .nil, .cons (.js "item_type") .nil) ts).2) .nil))) := by
    simp [unionSchema, jobj, toFields, cleanJ, cleanTop, cleanPropsVal]
  have hschema : jPath (geminiBody ⟨nm, pr, ip, mt, tmp, sc, some ts, md, pn⟩ img mime)
      ["generationConfig", "responseSchema"] = some (cleanJ (unionSchema ts)) := by
    simp [geminiBody, jPath, jGet, jobj, toFields, lookupF, option_match_id]
  constructor
  · simp [geminiBody, jPath, jGet, jobj, toFields, lookupF, option_match_id]
  · rw [show (["generationConfig", "responseSchema", "properties", "item_type", "enum"] : List String)
        = ["generationConfig", "responseSchema"] ++ ["properties", "item_type", "enum"] from rfl]
    rw [jPath_append, hschema, hclean]
    simp [jPath, jGet, lookupF, lookupF_cleanPropFields, unionFold_lookup_item, itemTypeDef,
          jobj, toFields, cleanJ, cleanTop, option_match_id]

/-- A content block the Claude scan passes over: it has a `type` binding
(line 419 would raise otherwise) that is not `tool_use`. -/
def skippableBlock (b : J) : Bool :=
  match jGet b "type" with
  | some t => decide (t ≠ .js "tool_use")
  | none => false

def allSkippable : JList → Bool
  | .nil => true
  | .cons b tl => skippableBlock b && allSkippable tl

/-- Is some block in the list a text block (`type == "text"`)? -/
def anyTextBlock : JList → Bool
  | .nil => false
  | .cons b tl => decide (jGet b "type" = some (.js "text")) || anyTextBlock tl

theorem claudeLoop_skip : ∀ (ts : JList) (whole rest : JList) (tb inp : J),
    allSkippable ts = true →
    jGet tb "type" = some (.js "tool_use") →
    jGet tb "input" = some inp →
    claudeLoop (concatL ts (.cons tb rest)) whole = .ok (.js (dumps inp))
  | .nil, whole, rest, tb, inp, _, htb, hinp => by
      cases tb with
      | obj bf =>
          simp only [jGet] at htb hinp
          simp [concatL, claudeLoop, pyIndexJ, htb, hinp, bind_ok_eq]
      | null => simp [jGet] at htb
      | jb b => simp [jGet] at htb
      | jn n => simp [jGet] at htb
      | jfloat l => simp [jGet] at htb
      | js s => simp [jGet] at htb
      | arr a => simp [jGet] at htb
  | .cons b ts, whole, rest, tb, inp, hskip, htb, hinp => by
      simp only [allSkippable, Bool.and_eq_true] at hskip
      obtain ⟨hb, hts⟩ := hskip
      cases b with
      | obj bf =>
          unfold skippableBlock at hb
          simp only [jGet] at hb
          cases hl : lookupF bf "type" with
          | none => rw [hl] at hb; simp at hb
          | some t =>
              rw [hl] at hb
              simp only [decide_eq_true_eq] at hb
              have hred : claudeLoop (concatL (.cons (.obj bf) ts) (.cons tb rest)) whole
                  = claudeLoop (concatL ts (.cons tb rest)) whole := by
                simp [concatL, claudeLoop, pyIndexJ, hl, bind_ok_eq, hb]
              rw [hred]
              exact claudeLoop_skip ts whole rest tb inp hts htb hinp
      | null => simp [skippableBlock, jGet] at hb
      | jb bb => simp [skippableBlock, jGet] at hb
      | jn n => simp [skippableBlock, jGet] at hb
      | jfloat l => simp [skippableBlock, jGet] at hb
      | js s => simp [skippableBlock, jGet] at hb
      | arr a => simp [skippableBlock, jGet] at hb

/-- C7: for an AWS-Claude response to a call that used tools or a schema,
whose content array has a text block strictly before the first tool-use
block, the extracted response text is the JSON serialization of that first
tool-use block's `input` — not the earlier text block's text. -/
theorem claim_C7_tool_use_beats_text
    (tc : TestCase) (rf : JFields) (ts rest : JList) (tb inp : J)
    (hclaude : isClaudeModel tc.model = true)
    (hflag : (tc.schema.isSome || tc.tools.isSome) = true)
    (hcontent : lookupF rf "content" = some (.arr (concatL ts (.cons tb rest))))
    (hskip : allSkippable ts = true)
    (htext : anyTextBlock ts = true)
    (htb : jGet tb "type" = some (.js "tool_use"))
    (hinp : jGet tb "input" = some inp) :
    claudeText (tc.schema.isSome || tc.tools.isSome) (.obj rf) = .ok (.js (dumps inp)) := by
  rw [hflag]
  have hhk : hasKeyF rf "content" = true := by simp [hasKeyF, hcontent]
  simp only [claudeText, pyIn, hhk, bind_ok_eq, if_true]
  simp only [pyIndexJ, hcontent, bind_ok_eq]
  exact claudeLoop_skip ts _ rest tb inp hskip htb hinp

/-- C9 counterexample: the claim says the token count is the value of the
FIRST FIELD PRESENT in the order `usage.total_tokens → usage.output_tokens →
usage.completion_tokens → token_count → tokens_used → 0`.  Two concrete
bodies refute that reading of lines 492-509: with
`usage = (total_tokens: 0, output_tokens: 7)` the first present field is
`total_tokens` (value 0) but the Python `or`-chain records 7; with
`usage = () , token_count = 42` the first present field is `token_count`
(value 42) but the code never leaves the `usage` branch and records 0. -/
theorem claim_C9_cex :
    nonClaudeTokens (jobj [("usage", jobj [("total_tokens", .jn 0), ("output_tokens", .jn 7)])])
        = .ok (.jn 7) ∧
    nonClaudeTokens (jobj [("usage", jobj []), ("token_count", .jn 42)]) = .ok (.jn 0) :=
  ⟨by decide, by decide⟩

/-- C9 (amended): when the body has a `usage` key (dict-shaped), the
recorded count is the first TRUTHY value of `usage.total_tokens`,
`usage.output_tokens`, `usage.completion_tokens` (an absent field counting
as 0), and 0 when none is truthy — `token_count` and `tokens_used` are never
consulted in that case.  Only when there is no `usage` key at all is
`token_count` probed, then `tokens_used`, then 0. -/
theorem claim_C9_amended (rf : JFields) :
    (∀ uf, lookupF rf "usage" = some (.obj uf) →
        truthy ((lookupF uf "total_tokens").getD (.jn 0)) = true →
        nonClaudeTokens (.obj rf) = .ok ((lookupF uf "total_tokens").getD (.jn 0))) ∧
    (∀ uf, lookupF rf "usage" = some (.obj uf) →
        truthy ((lookupF uf "total_tokens").getD (.jn 0)) = false →
        truthy ((lookupF uf "output_tokens").getD (.jn 0)) = true →
        nonClaudeTokens (.obj rf) = .ok ((lookupF uf "output_tokens").getD (.jn 0))) ∧
    (∀ uf, lookupF rf "usage" = some (.obj uf) →
        truthy ((lookupF uf "total_tokens").getD (.jn 0)) = false →
        truthy ((lookupF uf "output_tokens").getD (.jn 0)) = false →
        truthy ((lookupF uf "completion_tokens").getD (.jn 0)) = true →
        nonClaudeTokens (.obj rf) = .ok ((lookupF uf "completion_tokens").getD (.jn 0))) ∧
    (∀ uf, lookupF rf "usage" = some (.obj uf) →
        truthy ((lookupF uf "total_tokens").getD (.jn 0)) = false →
        truthy ((lookupF uf "output_tokens").getD (.jn 0)) = false →
        truthy ((lookupF uf "completion_tokens").getD (.jn 0)) = false →
        nonClaudeTokens (.obj rf) = .ok (.jn 0)) ∧
    (lookupF rf "usage" = none → ∀ v, lookupF rf "token_count" = some v →
        nonClaudeTokens (.obj rf) = .ok v) ∧
    (lookupF rf "usage" = none → lookupF rf "token_count" = none →
        ∀ v, lookupF rf "tokens_used" = some v → nonClaudeTokens (.obj rf) = .ok v) ∧
    (lookupF rf "usage" = none → lookupF rf "token_count" = none →
        lookupF rf "tokens_used" = none → nonClaudeTokens (.obj rf) = .ok (.jn 0)) := by
  refine ⟨?_, ?_, ?_, ?_, ?_, ?_, ?_⟩
  · intro uf hu h1
    simp [nonClaudeTokens, pyIn, pyIndexJ, pyGet, hasKeyF, hu, bind_ok_eq, pyOr, h1]
  · intro uf hu h1 h2
    simp [nonClaudeTokens, pyIn, pyIndexJ, pyGet, hasKeyF, hu, bind_ok_eq, pyOr, h1, h2]
  · intro uf hu h1 h2 h3
    simp [nonClaudeTokens, pyIn, pyIndexJ, pyGet, hasKeyF, hu, bind_ok_eq, pyOr, h1, h2, h3]
  · intro uf hu h1 h2 h3
    simp [nonClaudeTokens, pyIn, pyIndexJ, pyGet, hasKeyF, hu, bind_ok_eq, pyOr, h1, h2, h3]
  · intro hu v htc
    simp [nonClaudeTokens, pyIn, pyIndexJ, pyGet, hasKeyF, hu, htc, bind_ok_eq]
  · intro hu htc v htu
    simp [nonClaudeTokens, pyIn, pyIndexJ, pyGet, hasKeyF, hu, htc, htu, bind_ok_eq]
  · intro hu htc htu
    by_cases hch : hasKeyF rf "choices" = true
    · obtain ⟨c, hc⟩ : ∃ c, lookupF rf "choices" = some c := by
        cases hl : lookupF rf "choices" with
        | some c => exact ⟨c, rfl⟩
        | none => simp [hasKeyF, hl] at hch
      simp [nonClaudeTokens, pyIn, pyIndexJ, pyGet, hasKeyF, hu, htc, htu, hc, bind_ok_eq,
            jobj, toFields, lookupF]
      intro _
      rfl
    · have hch2 : lookupF rf "choices" = none := by
        cases hl : lookupF rf "choices" with
        | some c => simp [hasKeyF, hl] at hch
        | none => rfl
      simp [nonClaudeTokens, pyIn, pyIndexJ, pyGet, hasKeyF, hu, htc, htu, bind_ok_eq, hch2]
      rfl

/-- Inputs for the C8 counterexample: a non-Claude bedrock model whose
response body is `(choices: [])`. -/
def emptyChoicesCase : TestCase := ⟨none, "p", some "img.png", none, none, none, none, "mistral-large", none⟩

def emptyChoicesEnv : BedrockEnv := ⟨.ok "IMG", .ok (jobj [("choices", jarr [])]), 0, 5, 9, "T"⟩

/-- C8 counterexample: the claim demands EXACTLY one of
(response non-empty, error non-empty) after every completed call, but a
bedrock call whose body is `(choices: [])` completes successfully with
`response_text` left at `""` (line 448, the empty-`choices` guard at line
454 never assigns it) and `error = None` — neither holds. -/
theorem claim_C8_cex :
    (callBedrock emptyChoicesCase emptyChoicesEnv).response = .js "" ∧
    (callBedrock emptyChoicesCase emptyChoicesEnv).error = none :=
  ⟨by decide, by decide⟩

/-- C8 (amended): AT MOST one of (response non-empty, error non-empty)
holds after any of the three provider calls completes: a set error forces
the empty response (the handler returns `response=""`), and a non-empty
response forces `error = None` (the success path never sets it).  Both may
be empty, as the counterexample shows. -/
theorem claim_C8_at_most_one (tc : TestCase) (envB : BedrockEnv) (envO envG : HttpEnv) :
    (((callBedrock tc envB).error.isSome = true → (callBedrock tc envB).response = .js "") ∧
     ((callBedrock tc envB).response ≠ .js "" → (callBedrock tc envB).error = none)) ∧
    (((callOpenAI tc envO).error.isSome = true → (callOpenAI tc envO).response = .js "") ∧
     ((callOpenAI tc envO).response ≠ .js "" → (callOpenAI tc envO).error = none)) ∧
    (((callGemini tc envG).error.isSome = true → (callGemini tc envG).response = .js "") ∧
     ((callGemini tc envG).response ≠ .js "" → (callGemini tc envG).error = none)) := by
  refine ⟨?_, ?_, ?_⟩
  · cases hr : bedrockRun tc envB with
    | ok p =>
        obtain ⟨t, k⟩ := p
        exact ⟨fun h => by simp [callBedrock, hr] at h, fun _ => by simp [callBedrock, hr]⟩
    | error e =>
        exact ⟨fun _ => by simp [callBedrock, hr], fun h => by simp [callBedrock, hr] at h⟩
  · cases hr : openaiRun tc envO with
    | ok p =>
        obtain ⟨t, k⟩ := p
        exact ⟨fun h => by simp [callOpenAI, hr] at h, fun _ => by simp [callOpenAI, hr]⟩
    | error e =>
        exact ⟨fun _ => by simp [callOpenAI, hr], fun h => by simp [callOpenAI, hr] at h⟩
  · cases hr : geminiRun tc envG with
    | ok p =>
        obtain ⟨t, k⟩ := p
        exact ⟨fun h => by simp [callGemini, hr] at h, fun _ => by simp [callGemini, hr]⟩
    | error e =>
        exact ⟨fun _ => by simp [callGemini, hr], fun h => by simp [callGemini, hr] at h⟩

/-- Inputs for the C8 witness: a successful OpenAI exchange with non-empty
content, and arbitrary failing companions for the other providers. -/
def c8okCase : TestCase := ⟨none, "p", some "i.png", none, none, none, none, "gpt", none⟩

def c8okEnv : HttpEnv := ⟨.ok "I", .ok (200, jobj [("choices", jarr [jobj [("message", jobj [("content", .js "hello")])]])]), 0, 1, 2, "T"⟩

def c8envB : BedrockEnv := ⟨.error "x", .ok (jobj []), 0, 1, 2, "T"⟩

def c8envG : HttpEnv := ⟨.error "x", .ok (200, jobj []), 0, 1, 2, "T"⟩

theorem claim_C8_witness :
    (callOpenAI c8okCase c8okEnv).error = none ∧
    (callGemini c8okCase c8envG).response = .js "" := by
  have h := claim_C8_at_most_one c8okCase c8envB c8okEnv c8envG
  exact ⟨h.2.1.2 (by decide), h.2.2.1 (by decide)⟩

/-- C1: whenever a provider call's `try` body fails — whether during request
construction (missing `image_path`, unreadable image, a schema the strict
rewrite cannot process), the HTTP/SDK exchange, the status check, or
response extraction — the call still returns a `TestResult` whose error is
the exception's (non-empty) message, whose response is the empty string, and
whose latency is `(t_fail - t_start) * 1000 ≥ 0` under a monotone clock.
Each `callX` is a total function into `TestResult`, which is the embedded
form of "the exception never propagates to the Dispatcher's iteration". -/
theorem claim_C1_failure_envelope (tc : TestCase) (envB : BedrockEnv) (envO envG : HttpEnv)
    (e1 e2 e3 : String) :
    (bedrockRun tc envB = .error e1 → e1 ≠ "" → envB.tStart ≤ envB.tFail →
      (callBedrock tc envB).error = some e1 ∧ (callBedrock tc envB).error ≠ some "" ∧
      (callBedrock tc envB).response = .js "" ∧ 0 ≤ (callBedrock tc envB).latencyMs) ∧
    (openaiRun tc envO = .error e2 → e2 ≠ "" → envO.tStart ≤ envO.tFail →
      (callOpenAI tc envO).error = some e2 ∧ (callOpenAI tc envO).error ≠ some "" ∧
      (callOpenAI tc envO).response = .js "" ∧ 0 ≤ (callOpenAI tc envO).latencyMs) ∧
    (geminiRun tc envG = .error e3 → e3 ≠ "" → envG.tStart ≤ envG.tFail →
      (callGemini tc envG).error = some e3 ∧ (callGemini tc envG).error ≠ some "" ∧
      (callGemini tc envG).response = .js "" ∧ 0 ≤ (callGemini tc envG).latencyMs) := by
  refine ⟨?_, ?_, ?_⟩
  · intro hr hne ht
    refine ⟨by simp [callBedrock, hr], by simp [callBedrock, hr, hne], by simp [callBedrock, hr], ?_⟩
    have hl : (callBedrock tc envB).latencyMs = (envB.tFail - envB.tStart) * 1000 := by
      simp [callBedrock, hr]
    rw [hl]
    omega
  · intro hr hne ht
    refine ⟨by simp [callOpenAI, hr], by simp [callOpenAI, hr, hne], by simp [callOpenAI, hr], ?_⟩
    have hl : (callOpenAI tc envO).latencyMs = (envO.tFail - envO.tStart) * 1000 := by
      simp [callOpenAI, hr]
    rw [hl]
    omega
  · intro hr hne ht
    refine ⟨by simp [callGemini, hr], by simp [callGemini, hr, hne], by simp [callGemini, hr], ?_⟩
    have hl : (callGemini tc envG).latencyMs = (envG.tFail - envG.tStart) * 1000 := by
      simp [callGemini, hr]
    rw [hl]
    omega

/-- Inputs for the C1 witness: a test case with no `image_path`, so all
three `try` bodies raise `KeyError` at their first statement. -/
def c1failCase : TestCase := ⟨none, "p", none, none, none, none, none, "m", none⟩

def c1failEnvB : BedrockEnv := ⟨.ok "I", .ok (jobj []), 0, 1, 2, "T"⟩

def c1failEnvH : HttpEnv := ⟨.ok "I", .ok (200, jobj []), 0, 1, 2, "T"⟩

theorem claim_C1_witness :
    (callBedrock c1failCase c1failEnvB).error = some "KeyError: image_path" ∧
    (callOpenAI c1failCase c1failEnvH).response = .js "" ∧
    0 ≤ (callGemini c1failCase c1failEnvH).latencyMs := by
  have h := claim_C1_failure_envelope c1failCase c1failEnvB c1failEnvH c1failEnvH
    "KeyError: image_path" "KeyError: image_path" "KeyError: image_path"
  have hB := h.1 (by decide) (by decide) (by decide)
  have hO := h.2.1 (by decide) (by decide) (by decide)
  have hG := h.2.2 (by decide) (by decide) (by decide)
  exact ⟨hB.1, hO.2.2.1, hG.2.2.2⟩

/-- Concrete schema fields for the C4 witness: two properties, only one
originally required. -/
def c4fields : JFields :=
  toFields [("type", .js "object"),
            ("properties", jobj [("a", .js "A"), ("b", .js "B")]),
            ("required", jarr [.js "a"])]

def c4props : JFields := toFields [("a", .js "A"), ("b", .js "B")]

theorem claim_C4_witness :
    ∃ b, openaiBody ⟨some "My Test", "p", some "i.png", none, none, some (.obj c4fields), none, "gpt", none⟩ "IMG" "image/png" = .ok b ∧
      jPath b ["response_format", "json_schema", "schema", "required"] = some (.arr (fieldKeys c4props)) ∧
      lenL (fieldKeys c4props) = numFields c4props ∧
      nodupL (fieldKeys c4props) = true := by
  obtain ⟨b, h1, h2, h3, h4, _⟩ := claim_C4_openai_strict_required (some "My Test") "p"
    (some "i.png") none none "gpt" none "IMG" "image/png" c4fields c4props (by decide) (by decide)
  exact ⟨b, h1, h2, h3, h4⟩

/-- Tool for the C5 witness: declares one property and requires it. -/
def c5tool : Tool := ⟨"u", "d", jobj [("properties", jobj [("f", .js "F")]), ("required", jarr [.js "f"])]⟩

theorem claim_C5_witness :
    ∃ props req,
      jGet (unionSchema [c5tool]) "properties" = some (.obj props) ∧
      jGet (unionSchema [c5tool]) "required" = some (.arr req) ∧
      memJL (.js "item_type") req = true := by
  obtain ⟨p, r, h1, h2, h3, _⟩ := claim_C5_amended [c5tool] (by decide)
  exact ⟨p, r, h1, h2, h3⟩

def c6tool : Tool := ⟨"count_birds", "d", jobj [("type", .js "object")]⟩

theorem claim_C6_witness :
    jPath (geminiBody ⟨none, "p", some "i.png", none, none, none, some [c6tool], "gemini-pro", none⟩ "IMG" "image/png")
        ["generationConfig", "responseMimeType"] = some (.js "application/json") ∧
    jPath (geminiBody ⟨none, "p", some "i.png", none, none, none, some [c6tool], "gemini-pro", none⟩ "IMG" "image/png")
        ["generationConfig", "responseSchema", "properties", "item_type", "enum"]
      = some (jarr [.js "count_birds"]) :=
  claim_C6_gemini_tools_request none "p" (some "i.png") none none none "gemini-pro" none
    "IMG" "image/png" [c6tool] (by decide)

def c7case : TestCase := ⟨none, "p", some "i.png", none, none, some (jobj []), none, "anthropic.claude-3", none⟩

def c7textBlock : J := jobj [("type", .js "text"), ("text", .js "thinking")]

def c7toolBlock : J := jobj [("type", .js "tool_use"), ("input", jobj [("species", .js "owl")])]

theorem claim_C7_witness :
    claudeText (c7case.schema.isSome || c7case.tools.isSome)
        (.obj (toFields [("content", .arr (concatL (toElems [c7textBlock]) (.cons c7toolBlock .nil)))]))
      = .ok (.js (dumps (jobj [("species", .js "owl")]))) :=
  claim_C7_tool_use_beats_text c7case
    (toFields [("content", .arr (concatL (toElems [c7textBlock]) (.cons c7toolBlock .nil)))])
    (toElems [c7textBlock]) .nil c7toolBlock (jobj [("species", .js "owl")])
    (by decide) (by decide) (by decide) (by decide) (by decide) (by decide) (by decide)

theorem claim_C9_witness :
    nonClaudeTokens (.obj (toFields [("usage", jobj [("total_tokens", .jn 5)])])) = .ok (.jn 5) :=
  (claim_C9_amended (toFields [("usage", jobj [("total_tokens", .jn 5)])])).1
    (toFields [("total_tokens", .jn 5)]) (by decide) (by decide)

def c10schema : J :=
  jobj [("type", .js "object"),
        ("properties", jobj [("nested", jobj [("required", jarr [.js "x"]),
                                              ("properties", jobj [("x", .js "X")])])]),
        ("items", jobj [("required", jarr [])])]

theorem claim_C10_witness :
    ∃ b, openaiBody ⟨none, "p", none, none, none, some c10schema, none, "gpt", none⟩ "I" "image/png" = .ok b ∧
      jPath b ["response_format", "json_schema", "schema", "properties"] = jGet c10schema "properties" ∧
      jPath b ["response_format", "json_schema", "schema", "items"] = jGet c10schema "items" := by
  have h0 : (openaiBody ⟨none, "p", none, none, none, some c10schema, none, "gpt", none⟩ "I" "image/png").toOption.isSome = true := by decide
  match hx : openaiBody ⟨none, "p", none, none, none, some c10schema, none, "gpt", none⟩ "I" "image/png" with
  | .ok b =>
      have h := claim_C10_nested_schemas_untouched none "p" none none none "gpt" none "I" "image/png" c10schema b hx
      exact ⟨b, rfl, h.1, h.2⟩
  | .error e =>
      rw [hx] at h0
      simp [Except.toOption] at h0
